import Mathlib

/-!
# radrootsd — NIP-46 remote-signing engine, shallow embedding

This file embeds the NIP-46 protocol engine of the `radrootsd` daemon in
Lean 4 and proves properties of it: the session store with TTL expiry and
one-time secret claiming (`src/core/nip46/session.rs`), the permission
model (`filter_perms`, `sign_event_allowed`), the connect-URL parsing
(`src/nip46/connection.rs`), the remote-signer listener dispatch
(`src/transport/nostr/listener.rs`), and the client response correlator
(`src/nip46/client.rs`).

Modelling conventions:
* `Instant` is modelled as `Nat`; every store operation that reads the
  clock takes the current instant `now` explicitly.
* Public keys are their canonical lowercase-hex strings; `to_hex` on an
  already-parsed key is the identity.
* The `HashMap<String, Nip46Session>` behind the store's mutex is
  modelled as an association list with the HashMap invariant (no
  duplicate keys) stated separately as `StoreWF`.
* External collaborators (the `nostr` crate's crypto primitives, relay
  clients) are injected as function parameters; the opaque
  client/keypair handles carried by `Nip46Session` are omitted because
  no embedded operation inspects them.
-/

namespace Radrootsd

/-- NIP-46 request union, mirroring `nostr::nips::nip46::NostrConnectRequest`
as used by `radrootsd` (the fields the daemon reads). -/
structure UnsignedEvent where
  pubkey : String
  kind : Nat
  deriving DecidableEq, Repr

/-- A signed event as produced by `UnsignedEvent::sign_with_keys`. -/
structure SignedEvent where
  unsigned : UnsignedEvent
  sig : String
  deriving DecidableEq, Repr

inductive NostrConnectRequest where
  | connect (remote_signer_public_key : String) (secret : Option String)
  | getPublicKey
  | signEvent (unsigned : UnsignedEvent)
  | nip04Encrypt (public_key : String) (text : String)
  | nip04Decrypt (public_key : String) (ciphertext : String)
  | nip44Encrypt (public_key : String) (text : String)
  | nip44Decrypt (public_key : String) (ciphertext : String)
  | ping
  deriving DecidableEq, Repr

/-- `nostr::nips::nip46::ResponseResult`, restricted to the variants the
daemon constructs. -/
inductive ResponseResult where
  | ack
  | getPublicKey (pubkey : String)
  | signEvent (ev : SignedEvent)
  | nip04Encrypt (ciphertext : String)
  | nip04Decrypt (plaintext : String)
  | nip44Encrypt (ciphertext : String)
  | nip44Decrypt (plaintext : String)
  | pong
  | authUrl
  deriving DecidableEq, Repr

/-- `nostr::nips::nip46::NostrConnectResponse`: an optional result and an
optional error string. -/
structure NostrConnectResponse where
  result : Option ResponseResult
  error : Option String
  deriving DecidableEq, Repr

def NostrConnectResponse.with_error (msg : String) : NostrConnectResponse :=
  ⟨none, some msg⟩

def NostrConnectResponse.with_result (r : ResponseResult) : NostrConnectResponse :=
  ⟨some r, none⟩

/-- `PendingNostrRequest` from `src/core/nip46/session.rs`. -/
structure PendingNostrRequest where
  request_id : String
  client_pubkey : String
  request : NostrConnectRequest
  deriving DecidableEq, Repr

/-- `Nip46Session` from `src/core/nip46/session.rs`.  The opaque
`client`/`client_keys` relay and keypair handles are omitted: no store
operation or dispatch branch inspects them. -/
structure Nip46Session where
  id : String
  client_pubkey : String
  remote_signer_pubkey : String
  user_pubkey : Option String
  relays : List String
  perms : List String
  name : Option String
  url : Option String
  image : Option String
  expires_at : Option Nat
  auth_required : Bool
  authorized : Bool
  auth_url : Option String
  pending_request : Option PendingNostrRequest
  deriving DecidableEq, Repr

/-- `Nip46Session::is_expired`: true iff `expires_at <= Instant::now()`. -/
def Nip46Session.is_expired (now : Nat) (s : Nip46Session) : Bool :=
  match s.expires_at with
  | some t => t ≤ now
  | none => false

/-- `session_expires_at(ttl_secs)`: `None` when the TTL is zero, otherwise
`Instant::now() + ttl_secs`. -/
def session_expires_at (ttl_secs : Nat) (now : Nat) : Option Nat :=
  if ttl_secs = 0 then none else some (now + ttl_secs)

/-- `Nip46SessionStore`: the `HashMap<String, Nip46Session>` behind the
store's mutex, as an association list, together with the process-wide
used-secrets set. -/
structure Nip46SessionStore where
  sessions : List (String × Nip46Session)
  used_secrets : List String
  deriving DecidableEq, Repr

namespace Nip46SessionStore

/-- HashMap invariant: keys are unique, and every stored session is keyed
by its own `id` (all inserts use `session.id.clone()` as the key). -/
def WF (st : Nip46SessionStore) : Prop :=
  (st.sessions.map Prod.fst).Nodup ∧ ∀ p ∈ st.sessions, p.2.id = p.1

/-- `sessions.get(id)` of the backing map (no expiry logic). -/
def findSession (st : Nip46SessionStore) (session_id : String) : Option Nip46Session :=
  (st.sessions.find? (fun p => p.1 = session_id)).map Prod.snd

/-- `sessions.remove(id)` of the backing map. -/
def eraseSession (st : Nip46SessionStore) (session_id : String) : Nip46SessionStore :=
  { st with sessions := st.sessions.filter (fun p => ¬ p.1 = session_id) }

/-- In-place mutation through `sessions.get_mut(id)`: replace the value
stored at the key. -/
def setSession (st : Nip46SessionStore) (session_id : String) (s : Nip46Session) :
    Nip46SessionStore :=
  { st with sessions := st.sessions.map (fun p => if p.1 = session_id then (p.1, s) else p) }

/-- `insert(session)`: unconditional upsert keyed by `session.id`. -/
def insert (st : Nip46SessionStore) (session : Nip46Session) : Nip46SessionStore :=
  if st.sessions.any (fun p => p.1 = session.id) then
    setSession st session.id session
  else
    { st with sessions := st.sessions ++ [(session.id, session)] }

/-- `get(session_id)`: evict-on-expiry, otherwise return a clone. -/
def get (now : Nat) (st : Nip46SessionStore) (session_id : String) :
    Nip46SessionStore × Option Nip46Session :=
  let expired := ((findSession st session_id).map (fun s => s.is_expired now)).getD false
  if expired then
    (eraseSession st session_id, none)
  else
    (st, findSession st session_id)

/-- `remove(session_id)`: unconditional delete, returns whether an entry
existed. -/
def remove (st : Nip46SessionStore) (session_id : String) : Nip46SessionStore × Bool :=
  (eraseSession st session_id, (findSession st session_id).isSome)

/-- `set_user_pubkey(session_id, pubkey)`. -/
def set_user_pubkey (now : Nat) (st : Nip46SessionStore) (session_id : String)
    (pubkey : String) : Nip46SessionStore × Bool :=
  match findSession st session_id with
  | some session =>
    if session.is_expired now then
      (eraseSession st session_id, false)
    else
      (setSession st session_id { session with user_pubkey := some pubkey }, true)
  | none => (st, false)

/-- `require_auth(session_id, auth_url)`. -/
def require_auth (now : Nat) (st : Nip46SessionStore) (session_id : String)
    (auth_url : String) : Nip46SessionStore × Bool :=
  match findSession st session_id with
  | some session =>
    if session.is_expired now then
      (eraseSession st session_id, false)
    else
      (setSession st session_id
        { session with
            auth_required := true
            authorized := false
            auth_url := some auth_url
            pending_request := none },
        true)
  | none => (st, false)

/-- `Nip46AuthorizeOutcome` from `src/core/nip46/session.rs`. -/
structure AuthorizeOutcome where
  pending : Option PendingNostrRequest
  deriving DecidableEq, Repr

/-- `authorize(session_id)`: set `authorized`, take the pending request. -/
def authorize (now : Nat) (st : Nip46SessionStore) (session_id : String) :
    Nip46SessionStore × Option AuthorizeOutcome :=
  match findSession st session_id with
  | some session =>
    if session.is_expired now then
      (eraseSession st session_id, none)
    else
      (setSession st session_id
        { session with authorized := true, pending_request := none },
        some ⟨session.pending_request⟩)
  | none => (st, none)

/-- `set_pending_request(session_id, pending)`. -/
def set_pending_request (now : Nat) (st : Nip46SessionStore) (session_id : String)
    (pending : PendingNostrRequest) : Nip46SessionStore × Bool :=
  match findSession st session_id with
  | some session =>
    if session.is_expired now then
      (eraseSession st session_id, false)
    else
      (setSession st session_id { session with pending_request := some pending }, true)
  | none => (st, false)

/-- `list()`: evict every expired entry, then return the values sorted by
session id. -/
def list (now : Nat) (st : Nip46SessionStore) :
    Nip46SessionStore × List Nip46Session :=
  let retained := st.sessions.filter (fun p => ¬ p.2.is_expired now)
  ({ st with sessions := retained },
    (retained.map Prod.snd).mergeSort (fun a b => a.id ≤ b.id))

/-- Modelled from the spec: `Nip46SessionStore::claim_secret` is invoked
from `src/transport/nostr/listener.rs` and
`src/transport/jsonrpc/methods/nip46/connect.rs`, but the method body is
not present under the source tree (only its callers are).  Per the spec
it is an atomic check-and-insert into the UsedSecrets set: true iff the
secret was not previously present. -/
def claim_secret (st : Nip46SessionStore) (secret : String) :
    Nip46SessionStore × Bool :=
  if secret ∈ st.used_secrets then
    (st, false)
  else
    ({ st with used_secrets := secret :: st.used_secrets }, true)

end Nip46SessionStore

/-- Rust `str::starts_with` on string slices: the pattern's character
sequence is a prefix of the string's. -/
def str_starts_with (s pre : String) : Bool :=
  pre.data.isPrefixOf s.data

/-- `filter_perms(requested, allowed)` from `src/core/nip46/session.rs`. -/
def filter_perms (requested allowed : List String) : List String :=
  if allowed.isEmpty then
    []
  else
    let allows_sign_event := allowed.any (fun entry => entry = "sign_event")
    requested.filter (fun perm =>
      allowed.any (fun allow => allow = perm) ||
        (allows_sign_event && str_starts_with perm "sign_event:"))

/-- `sign_event_allowed(perms, kind)` from `src/core/nip46/session.rs`. -/
def sign_event_allowed (perms : List String) (kind : Nat) : Bool :=
  if perms.any (fun entry => entry = "sign_event") then
    true
  else
    perms.any (fun perm => perm = "sign_event:" ++ toString kind)

/-! ## Remote-signer listener dispatch (`src/transport/nostr/listener.rs`) -/

/-- The daemon state fields read by the listener: its own pubkey and the
NIP-46 configuration (`Radrootsd` in `src/core/state.rs`; the shared relay
client, keypair handle and metadata are opaque to the dispatch logic). -/
structure Daemon where
  pubkey : String
  config_perms : List String
  config_ttl_secs : Nat
  deriving Repr

/-- External cryptographic collaborators injected into the dispatch:
`UnsignedEvent::sign_with_keys` and the `nip04`/`nip44` primitives keyed
by the daemon's secret key (spec §1 lists these as external). -/
structure CryptoOps where
  sign : UnsignedEvent → Except String SignedEvent
  nip04_encrypt : String → String → Except String String
  nip04_decrypt : String → String → Except String String
  nip44_encrypt : String → String → Except String String
  nip44_decrypt : String → String → Except String String

/-- `has_permission(session, perm)` from the listener. -/
def has_permission (session : Nip46Session) (perm : String) : Bool :=
  session.perms.any (fun entry => entry = perm)

/-- `has_sign_event_permission(session, kind)` from the listener. -/
def has_sign_event_permission (session : Nip46Session) (kind : Nat) : Bool :=
  sign_event_allowed session.perms kind

/-- `auth_challenge` from the listener: on an `auth_required && !authorized`
session, store the request as the pending request and reply
`NostrConnectResponse::new(Some(AuthUrl), Some(auth_url))`. -/
def auth_challenge (now : Nat) (st : Nip46SessionStore) (session : Nip46Session)
    (request_id : String) (client_pubkey : String) (request : NostrConnectRequest) :
    Option (Nip46SessionStore × NostrConnectResponse) :=
  if !session.auth_required || session.authorized then
    none
  else
    let pending : PendingNostrRequest := ⟨request_id, client_pubkey, request⟩
    let st1 := (st.set_pending_request now session.id pending).1
    let auth_url := session.auth_url.getD "auth required"
    some (st1, ⟨some .authUrl, some auth_url⟩)

/-- `session_for_client`: look the requester's session up under its hex
pubkey (the lookup itself can evict an expired entry). -/
def session_for_client (now : Nat) (st : Nip46SessionStore) (client_pubkey : String) :
    Nip46SessionStore × Except NostrConnectResponse Nip46Session :=
  match st.get now client_pubkey with
  | (st1, some session) => (st1, .ok session)
  | (st1, none) => (st1, .error (.with_error "unauthorized"))

/-- Shared shape of the four `Nip04/44 Encrypt/Decrypt` arms of
`handle_request`: session lookup, literal-permission check, auth gate,
then the cryptographic operation. -/
def handle_crypto_arm (now : Nat) (st : Nip46SessionStore)
    (client_pubkey request_id : String) (request : NostrConnectRequest)
    (perm : String) (op : Except String String) (mk : String → ResponseResult)
    (fail_label : String) : Nip46SessionStore × NostrConnectResponse :=
  match session_for_client now st client_pubkey with
  | (st1, .error resp) => (st1, resp)
  | (st1, .ok session) =>
    if !has_permission session perm then
      (st1, .with_error ("unauthorized " ++ perm))
    else
      match auth_challenge now st1 session request_id client_pubkey request with
      | some (st2, resp) => (st2, resp)
      | none =>
        match op with
        | .ok value => (st1, .with_result (mk value))
        | .error err => (st1, .with_error (fail_label ++ " failed: " ++ err))

/-- `handle_request` from `src/transport/nostr/listener.rs`: the per-request
dispatch of the remote-signer listener, returning the updated store and the
single reply sent back to the requester. -/
def handle_request (crypto : CryptoOps) (d : Daemon) (now : Nat)
    (st : Nip46SessionStore) (client_pubkey : String) (request_id : String)
    (request : NostrConnectRequest) : Nip46SessionStore × NostrConnectResponse :=
  match request with
  | .connect remote_signer_public_key secret =>
    if remote_signer_public_key ≠ d.pubkey then
      (st, .with_error "remote signer pubkey mismatch")
    else
      let claimed : Nip46SessionStore × Option NostrConnectResponse :=
        match secret with
        | some s =>
          let trimmed := s.trim
          if trimmed.isEmpty then
            (st, some (.with_error "secret is empty"))
          else
            match st.claim_secret trimmed with
            | (st1, true) => (st1, none)
            | (st1, false) => (st1, some (.with_error "connect secret already used"))
        | none => (st, none)
      match claimed with
      | (st1, some resp) => (st1, resp)
      | (st1, none) =>
        let session : Nip46Session :=
          { id := client_pubkey
            client_pubkey := client_pubkey
            remote_signer_pubkey := d.pubkey
            user_pubkey := some d.pubkey
            relays := []
            perms := d.config_perms
            name := none
            url := none
            image := none
            expires_at := session_expires_at d.config_ttl_secs now
            auth_required := false
            authorized := true
            auth_url := none
            pending_request := none }
        (st1.insert session, .with_result .ack)
  | .getPublicKey =>
    (st, .with_result (.getPublicKey d.pubkey))
  | .signEvent unsigned =>
    match session_for_client now st client_pubkey with
    | (st1, .error resp) => (st1, resp)
    | (st1, .ok session) =>
      if !has_sign_event_permission session unsigned.kind then
        (st1, .with_error "unauthorized sign_event")
      else
        match auth_challenge now st1 session request_id client_pubkey
            (.signEvent unsigned) with
        | some (st2, resp) => (st2, resp)
        | none =>
          if unsigned.pubkey ≠ d.pubkey then
            (st1, .with_error "pubkey mismatch")
          else
            match crypto.sign unsigned with
            | .ok ev => (st1, .with_result (.signEvent ev))
            | .error err => (st1, .with_error ("sign_event failed: " ++ err))
  | .nip04Encrypt public_key text =>
    handle_crypto_arm now st client_pubkey request_id
      (.nip04Encrypt public_key text) "nip04_encrypt"
      (crypto.nip04_encrypt public_key text) .nip04Encrypt "nip04_encrypt"
  | .nip04Decrypt public_key ciphertext =>
    handle_crypto_arm now st client_pubkey request_id
      (.nip04Decrypt public_key ciphertext) "nip04_decrypt"
      (crypto.nip04_decrypt public_key ciphertext) .nip04Decrypt "nip04_decrypt"
  | .nip44Encrypt public_key text =>
    handle_crypto_arm now st client_pubkey request_id
      (.nip44Encrypt public_key text) "nip44_encrypt"
      (crypto.nip44_encrypt public_key text) .nip44Encrypt "nip44_encrypt"
  | .nip44Decrypt public_key ciphertext =>
    handle_crypto_arm now st client_pubkey request_id
      (.nip44Decrypt public_key ciphertext) "nip44_decrypt"
      (crypto.nip44_decrypt public_key ciphertext) .nip44Decrypt "nip44_decrypt"
  | .ping =>
    (st, .with_result .pong)

/-! ## Session-authorize RPC (`src/transport/jsonrpc/methods/nip46/session_authorize.rs`)

The `nip46.session.authorize` handler calls the store's `authorize`, and if
a pending request was taken it replays it through the listener's
`handle_request` and publishes the reply under the pending request's
original id. -/

/-- `RpcError`, restricted to the variants the embedded code constructs. -/
inductive RpcError where
  | invalidParams (msg : String)
  | other (msg : String)
  deriving DecidableEq, Repr

/-- Result of the `nip46.session.authorize` RPC: the response fields plus
the replayed reply message `(original request id, response)` when a pending
request existed. -/
structure SessionAuthorizeOutcome where
  authorized : Bool
  replayed : Bool
  replay_message : Option (String × NostrConnectResponse)
  deriving DecidableEq, Repr

/-- The `nip46.session.authorize` handler body. -/
def session_authorize_rpc (crypto : CryptoOps) (d : Daemon) (now : Nat)
    (st : Nip46SessionStore) (session_id : String) :
    Nip46SessionStore × Except RpcError SessionAuthorizeOutcome :=
  match st.authorize now session_id with
  | (st1, none) => (st1, .error (.invalidParams "unknown session"))
  | (st1, some outcome) =>
    match outcome.pending with
    | some pending =>
      let (st2, response) :=
        handle_request crypto d now st1 pending.client_pubkey pending.request_id
          pending.request
      (st2, .ok ⟨true, true, some (pending.request_id, response)⟩)
    | none => (st1, .ok ⟨true, false, none⟩)

/-! ## Connect-URL parsing (`src/nip46/connection.rs`)

The parser receives a `url::Url` already split by the external `url` crate;
the `Url` structure below models the accessors the parser reads (`scheme`,
`username`, `host_str`, `port`, `query_pairs` with percent-decoding already
applied). -/

/-- The slice of `url::Url` read by the connect-URL parser. -/
structure Url where
  scheme : String
  username : String
  host : Option String
  port : Option Nat
  query_pairs : List (String × String)
  deriving DecidableEq, Repr

/-- Modelled external collaborator: `radroots_nostr_parse_pubkey` followed
by `.to_hex()` — accepts a 64-digit hex string and returns its lowercase
canonical form (character-wise lowercase), rejects anything else. -/
def radroots_nostr_parse_pubkey (s : String) : Option String :=
  if s.length = 64 && s.data.all (fun c => c.isDigit ||
      ('a' ≤ c && c ≤ 'f') || ('A' ≤ c && c ≤ 'F')) then
    some (String.mk (s.data.map Char.toLower))
  else
    none

inductive Nip46ConnectMode where
  | bunker
  | nostrconnect
  deriving DecidableEq, Repr

/-- `Nip46ConnectInfo` from `src/nip46/connection.rs`. -/
structure Nip46ConnectInfo where
  mode : Nip46ConnectMode
  remote_signer_pubkey : Option String
  client_pubkey : Option String
  relays : List String
  secret : Option String
  perms : List String
  name : Option String
  url : Option String
  image : Option String
  deriving DecidableEq, Repr

/-- `parse_relays(url)`: every `relay=` query value that is non-empty after
trimming, kept untrimmed, in query order. -/
def parse_relays (url : Url) : List String :=
  (url.query_pairs.filter (fun p => p.1 = "relay" && !p.2.trim.isEmpty)).map Prod.snd

/-- `parse_optional_param(url, key)`: the first query value under `key`
that is non-empty after trimming, trimmed. -/
def parse_optional_param (url : Url) (key : String) : Option String :=
  url.query_pairs.findSome? (fun p =>
    if p.1 = key then
      let trimmed := p.2.trim
      if trimmed.isEmpty then none else some trimmed
    else
      none)

/-- `parse_perms(url)`: split the `perms` parameter on commas, trim the
entries, drop the empty ones. -/
def parse_perms (url : Url) : List String :=
  match parse_optional_param url "perms" with
  | some value =>
    ((value.splitOn ",").map String.trim).filter (fun entry => !entry.isEmpty)
  | none => []

/-- `host_to_relay(url)`: synthesize a `wss://` relay URL from the URL's
host (and port when present). -/
def host_to_relay (url : Url) : Option String :=
  url.host.map (fun host =>
    let base :=
      match url.port with
      | some port => host ++ ":" ++ toString port
      | none => host
    "wss://" ++ base)

/-- `parse_bunker_url` from `src/nip46/connection.rs`: the signer pubkey is
the username when present (the host then doubling as a bootstrap relay,
prepended as a `wss://` URL), or the bare host otherwise. -/
def parse_bunker_url (url : Url) : Except RpcError Nip46ConnectInfo :=
  let username := url.username
  match url.host with
  | none => .error (.invalidParams "missing remote signer")
  | some host =>
    let remote_signer_raw := if username.isEmpty then host else username
    match radroots_nostr_parse_pubkey remote_signer_raw with
    | none => .error (.invalidParams "invalid remote signer")
    | some remote_signer =>
      let relays0 := parse_relays url
      let relays :=
        if !username.isEmpty then
          match host_to_relay url with
          | some relay_host => relay_host :: relays0
          | none => relays0
        else
          relays0
      .ok
        { mode := .bunker
          remote_signer_pubkey := some remote_signer
          client_pubkey := none
          relays := relays
          secret := parse_optional_param url "secret"
          perms := parse_perms url
          name := parse_optional_param url "name"
          url := parse_optional_param url "url"
          image := parse_optional_param url "image" }

/-- `parse_nostrconnect_url` from `src/nip46/connection.rs`: the authority
is the client pubkey; at least one relay and a non-empty secret are
required. -/
def parse_nostrconnect_url (url : Url) : Except RpcError Nip46ConnectInfo :=
  match url.host with
  | none => .error (.invalidParams "missing client pubkey")
  | some host =>
    match radroots_nostr_parse_pubkey host with
    | none => .error (.invalidParams "invalid client pubkey")
    | some client_pubkey =>
      let relays := parse_relays url
      if relays.isEmpty then
        .error (.invalidParams "missing relay")
      else
        match parse_optional_param url "secret" with
        | none => .error (.invalidParams "missing secret")
        | some secret =>
          .ok
            { mode := .nostrconnect
              remote_signer_pubkey := none
              client_pubkey := some client_pubkey
              relays := relays
              secret := some secret
              perms := parse_perms url
              name := parse_optional_param url "name"
              url := parse_optional_param url "url"
              image := parse_optional_param url "image" }

/-- `parse_connect_url` dispatch on the scheme. -/
def parse_connect_url (url : Url) : Except RpcError Nip46ConnectInfo :=
  if url.scheme = "bunker" then parse_bunker_url url
  else if url.scheme = "nostrconnect" then parse_nostrconnect_url url
  else .error (.invalidParams ("unsupported connect scheme: " ++ url.scheme))

/-! ## Client response correlator (`src/nip46/client.rs`)

`wait_for_response` loops over the relay-pool notification stream until
the reply matching the outstanding request id arrives or the timeout
fires.  The stream is modelled as the finite list of notifications
delivered before the timeout; decrypt-and-parse (`nip44::decrypt` with the
session's conversation key followed by `NostrConnectMessage::from_json`)
is an injected partial function. -/

/-- `Kind::NostrConnect` (NIP-46 event kind 24133). -/
def kindNostrConnect : Nat := 24133

/-- The fields of a relay event read by the correlator loop. -/
structure NostrEvent where
  kind : Nat
  pubkey : String
  content : String
  deriving DecidableEq, Repr

/-- One received item of the notification broadcast channel:
`RelayPoolNotification::Event`, any other pool notification,
`RecvError::Lagged`, or `RecvError::Closed`. -/
inductive PoolItem where
  | event (e : NostrEvent)
  | message
  | lagged
  | closed
  deriving DecidableEq, Repr

/-- `NostrConnectMessage`: a request or response envelope with its id. -/
inductive NCMessage where
  | request (id : String) (req : NostrConnectRequest)
  | response (id : String) (result : Option String) (error : Option String)
  deriving DecidableEq, Repr

def NCMessage.is_response : NCMessage → Bool
  | .request _ _ => false
  | .response _ _ _ => true

def NCMessage.msg_id : NCMessage → String
  | .request i _ => i
  | .response i _ _ => i

/-- Outcome of the correlated wait: the matching response, a surfaced
error, or the timeout elapsing (surfaced as the "response not found"
error). -/
inductive WaitOutcome where
  | found (msg : NCMessage)
  | failed (msg : String)
  | timeout
  deriving DecidableEq, Repr

/-- `wait_for_response` from `src/nip46/client.rs` (the loop body of
`src/transport/jsonrpc/methods/nip46/connect.rs::wait_for_connect_response`
is identical): skip non-event notifications and events failing the
kind/author check; decrypt-and-parse every event passing it, surfacing a
failure as an error; return the first parsed response whose id matches. -/
def wait_for_response (decrypt_parse : String → Option NCMessage)
    (remote_signer_pubkey request_id : String) :
    List PoolItem → WaitOutcome
  | [] => .timeout
  | item :: rest =>
    match item with
    | .closed => .failed "notification closed"
    | .lagged => wait_for_response decrypt_parse remote_signer_pubkey request_id rest
    | .message => wait_for_response decrypt_parse remote_signer_pubkey request_id rest
    | .event e =>
      if e.kind ≠ kindNostrConnect || e.pubkey ≠ remote_signer_pubkey then
        wait_for_response decrypt_parse remote_signer_pubkey request_id rest
      else
        match decrypt_parse e.content with
        | none => .failed "decrypt or parse failed"
        | some m =>
          if m.is_response && m.msg_id = request_id then
            .found m
          else
            wait_for_response decrypt_parse remote_signer_pubkey request_id rest

/-- The requests whose dispatch arms pass through `auth_challenge` (the
operations beyond `Connect`/`GetPublicKey`, except `Ping`, which is
answered unconditionally). -/
def is_gated_request : NostrConnectRequest → Bool
  | .signEvent _ => true
  | .nip04Encrypt _ _ => true
  | .nip04Decrypt _ _ => true
  | .nip44Encrypt _ _ => true
  | .nip44Decrypt _ _ => true
  | .connect _ _ => false
  | .getPublicKey => false
  | .ping => false

/-- The permission check the dispatch applies to a gated request before
reaching the auth-challenge gate. -/
def request_perm_allowed (sess : Nip46Session) : NostrConnectRequest → Bool
  | .signEvent u => has_sign_event_permission sess u.kind
  | .nip04Encrypt _ _ => has_permission sess "nip04_encrypt"
  | .nip04Decrypt _ _ => has_permission sess "nip04_decrypt"
  | .nip44Encrypt _ _ => has_permission sess "nip44_encrypt"
  | .nip44Decrypt _ _ => has_permission sess "nip44_decrypt"
  | _ => true

/-- A concrete instantiation of the injected cryptographic collaborators,
used to evaluate the dispatch on concrete inputs. -/
def cryptoStub : CryptoOps where
  sign u := .ok ⟨u, "sig"⟩
  nip04_encrypt _ t := .ok t
  nip04_decrypt _ c := .ok c
  nip44_encrypt _ t := .ok t
  nip44_decrypt _ c := .ok c

/-- A concrete daemon state for evaluating the dispatch. -/
def dEx : Daemon := ⟨"daemonpk", ["sign_event", "nip44_encrypt"], 0⟩

/-- A concrete session sitting behind an unanswered auth challenge. -/
def sessGate : Nip46Session :=
  { id := "c", client_pubkey := "c", remote_signer_pubkey := "daemonpk",
    user_pubkey := none, relays := [], perms := ["sign_event", "nip44_encrypt"],
    name := none, url := none, image := none, expires_at := none,
    auth_required := true, authorized := false,
    auth_url := some "https://auth.example", pending_request := none }

/-- A concrete store holding only `sessGate`. -/
def stGate : Nip46SessionStore := ⟨[("c", sessGate)], []⟩


/-- The 64-hex pubkey used by the repository's own connection tests. -/
def hexPubkeyEx : String :=
  "1bdebe7b23fccb167fc8843280b789839dfa296ae9fd86cc9769b4813d76d8a4"

/-- A concrete decrypt-and-parse collaborator for evaluating the
correlator: only the content string "good" decrypts, to the response for
request id "r1". -/
def dpEx : String → Option NCMessage :=
  fun s => if s = "good" then some (.response "r1" (some "ack") none) else none

/-! ## Theorems -/

/-- **C5**: `filter_perms(requested, allowed)` returns a subset of
`requested`; if `allowed` is empty the result is empty; a requested entry
literally present in `allowed` passes through; and if `allowed` contains
the literal `"sign_event"`, every requested entry of the form
`"sign_event:<k>"` is retained for every kind `k`. -/
theorem filter_perms_closure :
    (∀ requested allowed : List String,
      ∀ p ∈ filter_perms requested allowed, p ∈ requested) ∧
    (∀ requested : List String, filter_perms requested [] = []) ∧
    (∀ (requested allowed : List String) (p : String),
      p ∈ requested → p ∈ allowed → p ∈ filter_perms requested allowed) ∧
    (∀ (requested allowed : List String) (k : Nat), "sign_event" ∈ allowed →
      ("sign_event:" ++ toString k) ∈ requested →
      ("sign_event:" ++ toString k) ∈ filter_perms requested allowed) := by
  have hne : ∀ (allowed : List String) (q : String), q ∈ allowed →
      allowed.isEmpty = false := by
    intro allowed q hq
    cases allowed with
    | nil => cases hq
    | cons a t => rfl
  refine ⟨?_, ?_, ?_, ?_⟩
  · intro requested allowed p hp
    unfold filter_perms at hp
    split at hp
    · cases hp
    · exact (List.mem_filter.mp hp).1
  · intro requested
    simp [filter_perms]
  · intro requested allowed p hreq hallow
    unfold filter_perms
    rw [hne allowed p hallow]
    simp only [Bool.false_eq_true, if_false]
    refine List.mem_filter.mpr ⟨hreq, ?_⟩
    have : allowed.any (fun allow => allow = p) = true := by
      rw [List.any_eq_true]
      exact ⟨p, hallow, by simp⟩
    simp [this]
  · intro requested allowed k hsign hreq
    unfold filter_perms
    rw [hne allowed "sign_event" hsign]
    simp only [Bool.false_eq_true, if_false]
    refine List.mem_filter.mpr ⟨hreq, ?_⟩
    have h1 : allowed.any (fun entry => entry = "sign_event") = true := by
      rw [List.any_eq_true]
      exact ⟨"sign_event", hsign, by simp⟩
    have h2 : str_starts_with ("sign_event:" ++ toString k) "sign_event:" = true := by
      unfold str_starts_with
      rw [String.data_append]
      simp [List.isPrefixOf_iff_prefix]
    simp [h1, h2]

/-- **C5 witness**: the closure properties at Scenario E's concrete
inputs. -/
theorem filter_perms_closure_witness :
    ("nip04_encrypt" ∈
      filter_perms ["sign_event:1", "sign_event:4", "nip04_encrypt"]
        ["sign_event", "nip04_encrypt"]) ∧
    ("sign_event:" ++ toString 4 ∈
      filter_perms ["sign_event:1", "sign_event:4", "nip04_encrypt"]
        ["sign_event", "nip04_encrypt"]) ∧
    filter_perms ["sign_event:1"] [] = [] := by
  obtain ⟨_, hempty, hlit, hwild⟩ := filter_perms_closure
  refine ⟨?_, ?_, hempty _⟩
  · exact hlit _ _ "nip04_encrypt" (by decide) (by decide)
  · exact hwild ["sign_event:1", "sign_event:4", "nip04_encrypt"]
      ["sign_event", "nip04_encrypt"] 4 (by decide) (by decide)

/-- **C6 counterexample**: the claim says the output of `filter_perms`
contains no permission string more than once even when `requested` itself
contains duplicates, but a duplicated requested entry that is allowed is
echoed twice. -/
theorem filter_perms_duplicate_cex :
    filter_perms ["nip04_encrypt", "nip04_encrypt"] ["nip04_encrypt"] =
      ["nip04_encrypt", "nip04_encrypt"] ∧
    ¬ (filter_perms ["nip04_encrypt", "nip04_encrypt"] ["nip04_encrypt"]).Nodup := by
  constructor
  · rfl
  · decide

/-- **C6 amended**: the output of `filter_perms` preserves the order of
`requested` (it is a sublist of `requested`), and it is duplicate-free
whenever `requested` is; a duplicate in `requested` may be echoed to the
output. -/
theorem filter_perms_order_preserved (requested allowed : List String) :
    (filter_perms requested allowed).Sublist requested ∧
    (requested.Nodup → (filter_perms requested allowed).Nodup) := by
  constructor
  · unfold filter_perms
    split
    · exact List.nil_sublist _
    · exact List.filter_sublist _
  · intro h
    unfold filter_perms
    split
    · exact List.nodup_nil
    · exact h.filter _

/-- **C6 amended witness**: order preservation and duplicate-freeness at
Scenario E's inputs. -/
theorem filter_perms_order_preserved_witness :
    (filter_perms ["sign_event:1", "sign_event:4", "nip04_encrypt"]
      ["sign_event", "nip04_encrypt"]).Sublist
      ["sign_event:1", "sign_event:4", "nip04_encrypt"] ∧
    (filter_perms ["sign_event:1", "sign_event:4", "nip04_encrypt"]
      ["sign_event", "nip04_encrypt"]).Nodup := by
  have h := filter_perms_order_preserved
    ["sign_event:1", "sign_event:4", "nip04_encrypt"]
    ["sign_event", "nip04_encrypt"]
  exact ⟨h.1, h.2 (by decide)⟩

/-- **C1**: the first `claim_secret(s)` call on a store that has not yet
recorded `s` returns true and records `s` exactly once; any call on a
store that has recorded `s` returns false and leaves the store unchanged;
recording survives claims of other secrets, so every subsequent call with
the same `s` returns false. -/
theorem claim_secret_one_time_use (st : Nip46SessionStore) (s : String)
    (h : s ∉ st.used_secrets) :
    (st.claim_secret s).2 = true ∧
    (st.claim_secret s).1.used_secrets.count s = 1 ∧
    s ∈ (st.claim_secret s).1.used_secrets ∧
    (∀ st' : Nip46SessionStore, s ∈ st'.used_secrets →
      (st'.claim_secret s).2 = false ∧ (st'.claim_secret s).1 = st') ∧
    (∀ (st' : Nip46SessionStore) (other : String), s ∈ st'.used_secrets →
      s ∈ (st'.claim_secret other).1.used_secrets) := by
  refine ⟨?_, ?_, ?_, ?_, ?_⟩
  · simp [Nip46SessionStore.claim_secret, h]
  · simp [Nip46SessionStore.claim_secret, h, List.count_cons_self,
      List.count_eq_zero.mpr h]
  · simp [Nip46SessionStore.claim_secret, h]
  · intro st' hmem
    simp [Nip46SessionStore.claim_secret, hmem]
  · intro st' other hmem
    unfold Nip46SessionStore.claim_secret
    split
    · exact hmem
    · exact List.mem_cons_of_mem _ hmem

/-- **C1 witness**: Scenario C — `claim_secret("abc")` is true on the
fresh store, then false, and `"abc"` is recorded once. -/
theorem claim_secret_one_time_use_witness :
    ((Nip46SessionStore.mk [] []).claim_secret "abc").2 = true ∧
    (((Nip46SessionStore.mk [] []).claim_secret "abc").1.claim_secret "abc").2 = false ∧
    ((Nip46SessionStore.mk [] []).claim_secret "abc").1.used_secrets.count "abc" = 1 := by
  obtain ⟨h1, h2, h3, h4, _⟩ :=
    claim_secret_one_time_use (Nip46SessionStore.mk [] []) "abc" (by decide)
  exact ⟨h1, (h4 _ h3).1, h2⟩

namespace Nip46SessionStore

/-- `find?` over an in-place value update at a key. -/
theorem find_update_eq (l : List (String × Nip46Session)) (k : String)
    (v : Nip46Session) :
    (l.map (fun p => if p.1 = k then (p.1, v) else p)).find?
        (fun p => p.1 = k) =
      (l.find? (fun p => p.1 = k)).map (fun p => (p.1, v)) := by
  induction l with
  | nil => rfl
  | cons h t ih =>
    by_cases hk : h.1 = k
    · rw [List.map_cons, if_pos hk,
        List.find?_cons_of_pos _ (by simpa using hk),
        List.find?_cons_of_pos _ (by simpa using hk)]
      rfl
    · rw [List.map_cons, if_neg hk,
        List.find?_cons_of_neg _ (by simpa using hk),
        List.find?_cons_of_neg _ (by simpa using hk)]
      exact ih

/-- Updating the value at a key changes exactly what the lookup of that
key returns. -/
theorem findSession_setSession (st : Nip46SessionStore) (session_id : String)
    (v : Nip46Session) :
    (st.setSession session_id v).findSession session_id =
      (st.findSession session_id).map (fun _ => v) := by
  unfold findSession setSession
  rw [find_update_eq]
  cases st.sessions.find? (fun p => p.1 = session_id) <;> rfl

/-- After erasing a key, lookups of that key find nothing. -/
theorem findSession_eraseSession (st : Nip46SessionStore) (session_id : String) :
    (st.eraseSession session_id).findSession session_id = none := by
  unfold findSession eraseSession
  have : (st.sessions.filter (fun p => ¬ p.1 = session_id)).find?
      (fun p => p.1 = session_id) = none := by
    refine List.find?_eq_none.mpr ?_
    intro x hx
    have hmem := List.of_mem_filter hx
    simpa using hmem
  rw [this]
  rfl

/-- With unique keys, a member whose key is looked up is the entry that
`find?` returns. -/
theorem mem_eq_find_of_nodup (l : List (String × Nip46Session))
    (hnd : (l.map Prod.fst).Nodup) (p q : String × Nip46Session)
    (hp : p ∈ l) (hfind : l.find? (fun r => r.1 = p.1) = some q) : p = q := by
  induction l with
  | nil => cases hp
  | cons h t ih =>
    rw [List.map_cons, List.nodup_cons] at hnd
    by_cases hk : h.1 = p.1
    · rw [List.find?_cons_of_pos _ (by simpa using hk)] at hfind
      obtain rfl := Option.some.injEq .. ▸ hfind
      rcases List.mem_cons.mp hp with rfl | hpt
      · rfl
      · exact absurd (hk ▸ List.mem_map_of_mem Prod.fst hpt) hnd.1
    · rw [List.find?_cons_of_neg _ (by simpa using hk)] at hfind
      rcases List.mem_cons.mp hp with rfl | hpt
      · exact absurd rfl hk
      · exact ih hnd.2 hpt hfind

end Nip46SessionStore

/-- The `AuthUrl` reply produced by `auth_challenge` always carries
`Some(AuthUrl)` as result and the auth URL in the error slot. -/
theorem auth_challenge_shape (now : Nat) (st : Nip46SessionStore)
    (sess : Nip46Session) (request_id client_pubkey : String)
    (request : NostrConnectRequest) (st' : Nip46SessionStore)
    (resp : NostrConnectResponse)
    (h : auth_challenge now st sess request_id client_pubkey request =
      some (st', resp)) :
    resp = ⟨some .authUrl, some (sess.auth_url.getD "auth required")⟩ := by
  unfold auth_challenge at h
  split at h
  · cases h
  · rw [Option.some.injEq, Prod.mk.injEq] at h
    exact h.2.symm

/-- **C3**: the `SignEvent` arm of the listener dispatch returns a signed
event only when a session exists for the requester, the session's perms
pass `sign_event_allowed` for the event's kind, and the unsigned event's
pubkey equals the daemon's own pubkey; when any of these fails, the reply
carries an error (the `AuthUrl` deferral also transports its URL in the
error slot) and no signed event is returned. -/
theorem sign_event_requires_session_perm_pubkey (crypto : CryptoOps)
    (d : Daemon) (now : Nat) (st : Nip46SessionStore)
    (client_pubkey request_id : String) (unsigned : UnsignedEvent) :
    (∀ ev : SignedEvent,
      (handle_request crypto d now st client_pubkey request_id
          (.signEvent unsigned)).2.result = some (.signEvent ev) →
        (∃ sess, (st.get now client_pubkey).2 = some sess ∧
          sign_event_allowed sess.perms unsigned.kind = true) ∧
        unsigned.pubkey = d.pubkey) ∧
    (¬ ((∃ sess, (st.get now client_pubkey).2 = some sess ∧
          sign_event_allowed sess.perms unsigned.kind = true) ∧
        unsigned.pubkey = d.pubkey) →
      (handle_request crypto d now st client_pubkey request_id
          (.signEvent unsigned)).2.error.isSome = true ∧
      ∀ ev : SignedEvent,
        (handle_request crypto d now st client_pubkey request_id
            (.signEvent unsigned)).2.result ≠ some (.signEvent ev)) := by
  unfold handle_request session_for_client
  rcases hget : st.get now client_pubkey with ⟨st1, os⟩
  cases os with
  | none =>
    refine ⟨?_, ?_⟩
    · intro ev hev
      simp [NostrConnectResponse.with_error] at hev
    · intro _
      simp [NostrConnectResponse.with_error]
  | some sess =>
    cases hperm : has_sign_event_permission sess unsigned.kind with
    | false =>
      refine ⟨?_, ?_⟩
      · intro ev hev
        simp [hperm, NostrConnectResponse.with_error] at hev
      · intro _
        simp [hperm, NostrConnectResponse.with_error]
    | true =>
      simp only [hperm, Bool.not_true, Bool.false_eq_true, if_false]
      rcases hchal : auth_challenge now st1 sess request_id client_pubkey
          (.signEvent unsigned) with _ | ⟨st2, resp⟩
      · by_cases hpk : unsigned.pubkey = d.pubkey
        · simp only [hpk, ne_eq, not_true_eq_false, if_false]
          refine ⟨?_, ?_⟩
          · intro ev _
            exact ⟨⟨sess, rfl, hperm⟩, trivial⟩
          · intro hcon
            exact absurd ⟨⟨sess, rfl, hperm⟩, trivial⟩ hcon
        · simp only [ne_eq, hpk, not_false_eq_true, if_true]
          refine ⟨?_, ?_⟩
          · intro ev hev
            simp [NostrConnectResponse.with_error] at hev
          · intro _
            simp [NostrConnectResponse.with_error]
      · have hresp := auth_challenge_shape _ _ _ _ _ _ _ _ hchal
        subst hresp
        refine ⟨?_, ?_⟩
        · intro ev hev
          simp at hev
        · intro _
          simp

/-- **C3 witness**: a session-less requester's `SignEvent` is answered
with an error and no signed event. -/
theorem sign_event_requires_session_perm_pubkey_witness :
    (handle_request cryptoStub dEx 0 ⟨[], []⟩ "clientpk" "r1"
        (.signEvent ⟨"daemonpk", 1⟩)).2.error.isSome = true ∧
    ∀ ev : SignedEvent,
      (handle_request cryptoStub dEx 0 ⟨[], []⟩ "clientpk" "r1"
          (.signEvent ⟨"daemonpk", 1⟩)).2.result ≠ some (.signEvent ev) := by
  refine (sign_event_requires_session_perm_pubkey cryptoStub dEx 0 ⟨[], []⟩
      "clientpk" "r1" ⟨"daemonpk", 1⟩).2 ?_
  rintro ⟨⟨sess, hs, -⟩, -⟩
  simp [Nip46SessionStore.get, Nip46SessionStore.findSession] at hs

/-- **C4**: a stored session whose `expires_at` lies in the past is
treated as absent and evicted: `get` removes it and returns none (and
repeated lookups still return none), `list` omits it, and every mutating
operation (`set_user_pubkey`, `require_auth`, `authorize`,
`set_pending_request`) refuses with false/none; a session whose
`expires_at` lies in the future is returned unchanged by `get`. -/
theorem session_expiry_eviction :
    (∀ (now : Nat) (st : Nip46SessionStore) (session_id : String)
        (sess : Nip46Session) (t : Nat), st.WF →
        st.findSession session_id = some sess →
        sess.expires_at = some t → t < now →
        st.get now session_id = (st.eraseSession session_id, none) ∧
        (st.eraseSession session_id).get now session_id =
          (st.eraseSession session_id, none) ∧
        (∀ s' ∈ (st.list now).2, s'.id ≠ session_id) ∧
        (∀ pk, (st.set_user_pubkey now session_id pk).2 = false) ∧
        (∀ u, (st.require_auth now session_id u).2 = false) ∧
        (st.authorize now session_id).2 = none ∧
        (∀ pnd, (st.set_pending_request now session_id pnd).2 = false)) ∧
    (∀ (now : Nat) (st : Nip46SessionStore) (session_id : String)
        (sess : Nip46Session) (t : Nat),
        st.findSession session_id = some sess →
        sess.expires_at = some t → now < t →
        st.get now session_id = (st, some sess)) := by
  constructor
  · intro now st session_id sess t hWF hfind ht hlt
    have hexp : sess.is_expired now = true := by
      simp only [Nip46Session.is_expired, ht, decide_eq_true_eq]
      omega
    refine ⟨?_, ?_, ?_, ?_, ?_, ?_, ?_⟩
    · simp [Nip46SessionStore.get, hfind, hexp]
    · simp [Nip46SessionStore.get, Nip46SessionStore.findSession_eraseSession]
    · intro s' hs' hcontra
      unfold Nip46SessionStore.list at hs'
      simp only at hs'
      have hmem := List.mem_mergeSort.mp hs'
      obtain ⟨p, hpmem, rfl⟩ := List.mem_map.mp hmem
      have hlive := List.of_mem_filter hpmem
      have hpin := List.mem_of_mem_filter hpmem
      have hkey : p.1 = session_id := (hWF.2 p hpin) ▸ hcontra
      obtain ⟨q, hq, hq2⟩ := Option.map_eq_some'.mp hfind
      have hpq : p = q := by
        refine Nip46SessionStore.mem_eq_find_of_nodup st.sessions hWF.1 p q hpin ?_
        rw [hkey]
        exact hq
      rw [hpq, hq2, hexp] at hlive
      simp at hlive
    · intro pk
      simp [Nip46SessionStore.set_user_pubkey, hfind, hexp]
    · intro u
      simp [Nip46SessionStore.require_auth, hfind, hexp]
    · simp [Nip46SessionStore.authorize, hfind, hexp]
    · intro pnd
      simp [Nip46SessionStore.set_pending_request, hfind, hexp]
  · intro now st session_id sess t hfind ht hlt
    have hexp : sess.is_expired now = false := by
      simp only [Nip46Session.is_expired, ht, decide_eq_false_iff_not]
      omega
    simp [Nip46SessionStore.get, hfind, hexp]

/-- **C4 witness**: Scenario D — a session expiring at instant 1 looked up
at instant 2 is gone (twice), invisible to `list`, refused by the
mutators; looked up at instant 0 it is returned unchanged. -/
theorem session_expiry_eviction_witness :
    ((Nip46SessionStore.mk
        [("c", { id := "c", client_pubkey := "c", remote_signer_pubkey := "d",
                 user_pubkey := none, relays := [], perms := [],
                 name := none, url := none, image := none,
                 expires_at := some 1, auth_required := false,
                 authorized := true, auth_url := none,
                 pending_request := none })] []).get 2 "c").2 = none ∧
    ((Nip46SessionStore.mk
        [("c", { id := "c", client_pubkey := "c", remote_signer_pubkey := "d",
                 user_pubkey := none, relays := [], perms := [],
                 name := none, url := none, image := none,
                 expires_at := some 1, auth_required := false,
                 authorized := true, auth_url := none,
                 pending_request := none })] []).authorize 2 "c").2 = none ∧
    ((Nip46SessionStore.mk
        [("c", { id := "c", client_pubkey := "c", remote_signer_pubkey := "d",
                 user_pubkey := none, relays := [], perms := [],
                 name := none, url := none, image := none,
                 expires_at := some 1, auth_required := false,
                 authorized := true, auth_url := none,
                 pending_request := none })] []).get 0 "c").2 =
      some { id := "c", client_pubkey := "c", remote_signer_pubkey := "d",
             user_pubkey := none, relays := [], perms := [],
             name := none, url := none, image := none,
             expires_at := some 1, auth_required := false,
             authorized := true, auth_url := none,
             pending_request := none } := by
  have h := session_expiry_eviction
  have h1 := h.1 2 (Nip46SessionStore.mk
    [("c", { id := "c", client_pubkey := "c", remote_signer_pubkey := "d",
             user_pubkey := none, relays := [], perms := [],
             name := none, url := none, image := none,
             expires_at := some 1, auth_required := false,
             authorized := true, auth_url := none,
             pending_request := none })] []) "c"
    { id := "c", client_pubkey := "c", remote_signer_pubkey := "d",
      user_pubkey := none, relays := [], perms := [],
      name := none, url := none, image := none,
      expires_at := some 1, auth_required := false,
      authorized := true, auth_url := none, pending_request := none } 1
    (by constructor
        · simp
        · intro p hp
          simp at hp
          rw [hp]) rfl rfl (by omega)
  have h2 := h.2 0 (Nip46SessionStore.mk
    [("c", { id := "c", client_pubkey := "c", remote_signer_pubkey := "d",
             user_pubkey := none, relays := [], perms := [],
             name := none, url := none, image := none,
             expires_at := some 1, auth_required := false,
             authorized := true, auth_url := none,
             pending_request := none })] []) "c"
    { id := "c", client_pubkey := "c", remote_signer_pubkey := "d",
      user_pubkey := none, relays := [], perms := [],
      name := none, url := none, image := none,
      expires_at := some 1, auth_required := false,
      authorized := true, auth_url := none, pending_request := none } 1
    rfl rfl (by omega)
  refine ⟨?_, ?_, ?_⟩
  · rw [h1.1]
  · rw [h1.2.2.2.2.2.1]
  · rw [h2]

/-- **C2 counterexample**: the claim calls every operation other than
`Connect`/`GetPublicKey` gated, but `Ping` on a session with
`auth_required = true, authorized = false` is executed anyway: the
dispatch replies `Pong`, no `AuthUrl` reply is produced, and the session's
`pending_request` stays empty. -/
theorem auth_gate_ping_cex :
    sessGate.auth_required = true ∧ sessGate.authorized = false ∧
    stGate.findSession "c" = some sessGate ∧
    handle_request cryptoStub dEx 0 stGate "c" "r1" .ping =
      (stGate, .with_result .pong) ∧
    ((handle_request cryptoStub dEx 0 stGate "c" "r1" .ping).1.findSession
        "c").map (fun s => s.pending_request) = some none := by
  exact ⟨rfl, rfl, rfl, rfl, rfl⟩

/-- **C2 amended**: for a session with `auth_required = true` and
`authorized = false`, an inbound gated request — `SignEvent` or a
`Nip04/44 Encrypt/Decrypt`, with its permission check passing (`Ping` is
answered unconditionally and a failed permission check yields a plain
error) — is not executed: it is stored as the session's single
`pending_request` and an `AuthUrl` reply is returned; a subsequent
`authorize` returns that pending request exactly once (the authorize RPC
then replays it through the same dispatch under the original request id),
and a second `authorize` returns `pending = none`. -/
theorem auth_gate_exactly_once_replay (crypto : CryptoOps) (d : Daemon)
    (now : Nat) (st : Nip46SessionStore) (cp rid : String)
    (req : NostrConnectRequest) (sess : Nip46Session)
    (hfind : st.findSession cp = some sess) (hid : sess.id = cp)
    (hexp : sess.is_expired now = false)
    (hgate : is_gated_request req = true)
    (hperm : request_perm_allowed sess req = true)
    (hreq : sess.auth_required = true) (hnauth : sess.authorized = false) :
    handle_request crypto d now st cp rid req =
      ((st.set_pending_request now cp ⟨rid, cp, req⟩).1,
        ⟨some .authUrl, some (sess.auth_url.getD "auth required")⟩) ∧
    (st.set_pending_request now cp ⟨rid, cp, req⟩).1.findSession cp =
      some { sess with pending_request := some ⟨rid, cp, req⟩ } ∧
    ((st.set_pending_request now cp ⟨rid, cp, req⟩).1.authorize now cp).2 =
      some ⟨some ⟨rid, cp, req⟩⟩ ∧
    ((st.set_pending_request now cp ⟨rid, cp, req⟩).1.authorize
        now cp).1.findSession cp =
      some { sess with authorized := true, pending_request := none } ∧
    (((st.set_pending_request now cp ⟨rid, cp, req⟩).1.authorize
        now cp).1.authorize now cp).2 = some ⟨none⟩ ∧
    (∃ resp, (session_authorize_rpc crypto d now
        (st.set_pending_request now cp ⟨rid, cp, req⟩).1 cp).2 =
      .ok ⟨true, true, some (rid, resp)⟩) := by
  have hget : st.get now cp = (st, some sess) := by
    simp [Nip46SessionStore.get, hfind, hexp]
  have hsfc : session_for_client now st cp = (st, .ok sess) := by
    rw [session_for_client, hget]
  have hset : st.set_pending_request now cp ⟨rid, cp, req⟩ =
      (st.setSession cp { sess with pending_request := some ⟨rid, cp, req⟩ },
        true) := by
    simp [Nip46SessionStore.set_pending_request, hfind, hexp]
  have hchal : ∀ r : NostrConnectRequest,
      auth_challenge now st sess rid cp r =
        some ((st.set_pending_request now cp ⟨rid, cp, r⟩).1,
          ⟨some .authUrl, some (sess.auth_url.getD "auth required")⟩) := by
    intro r
    rw [auth_challenge, hreq, hnauth, hid]
    rfl
  have hfind1 : (st.set_pending_request now cp ⟨rid, cp, req⟩).1.findSession cp =
      some { sess with pending_request := some ⟨rid, cp, req⟩ } := by
    rw [hset]
    rw [Nip46SessionStore.findSession_setSession, hfind]
    rfl
  have hexp1 : Nip46Session.is_expired now
      { sess with pending_request := some ⟨rid, cp, req⟩ } = false := hexp
  have hexp2 : Nip46Session.is_expired now
      { sess with authorized := true, pending_request := none } = false := hexp
  have hauth1 : (st.set_pending_request now cp ⟨rid, cp, req⟩).1.authorize now cp =
      ((st.set_pending_request now cp ⟨rid, cp, req⟩).1.setSession cp
          { sess with authorized := true, pending_request := none },
        some ⟨some ⟨rid, cp, req⟩⟩) := by
    simp [Nip46SessionStore.authorize, hfind1, hexp1]
  have hfind2 : ((st.set_pending_request now cp ⟨rid, cp, req⟩).1.authorize
      now cp).1.findSession cp =
      some { sess with authorized := true, pending_request := none } := by
    rw [hauth1]
    simp only [Nip46SessionStore.findSession_setSession, hfind1, Option.map_some']
  have hfindY : ((st.set_pending_request now cp ⟨rid, cp, req⟩).1.setSession cp
      { sess with authorized := true, pending_request := none }).findSession cp =
      some { sess with authorized := true, pending_request := none } := by
    rw [Nip46SessionStore.findSession_setSession, hfind1]
    rfl
  have hauth2 : (((st.set_pending_request now cp ⟨rid, cp, req⟩).1.authorize
      now cp).1.authorize now cp).2 = some ⟨none⟩ := by
    rw [hauth1]
    simp [Nip46SessionStore.authorize, hfindY, hexp2]
  have hmain : handle_request crypto d now st cp rid req =
      ((st.set_pending_request now cp ⟨rid, cp, req⟩).1,
        ⟨some .authUrl, some (sess.auth_url.getD "auth required")⟩) := by
    cases req with
    | connect a b => simp [is_gated_request] at hgate
    | getPublicKey => simp [is_gated_request] at hgate
    | ping => simp [is_gated_request] at hgate
    | signEvent u =>
      rw [show request_perm_allowed sess (.signEvent u) =
        has_sign_event_permission sess u.kind from rfl] at hperm
      rw [handle_request, hsfc]
      simp only [hperm, Bool.not_true, Bool.false_eq_true, if_false]
      rw [hchal (.signEvent u)]
    | nip04Encrypt pk text =>
      rw [show request_perm_allowed sess (.nip04Encrypt pk text) =
        has_permission sess "nip04_encrypt" from rfl] at hperm
      rw [handle_request, handle_crypto_arm, hsfc]
      simp only [hperm, Bool.not_true, Bool.false_eq_true, if_false]
      rw [hchal (.nip04Encrypt pk text)]
    | nip04Decrypt pk ct =>
      rw [show request_perm_allowed sess (.nip04Decrypt pk ct) =
        has_permission sess "nip04_decrypt" from rfl] at hperm
      rw [handle_request, handle_crypto_arm, hsfc]
      simp only [hperm, Bool.not_true, Bool.false_eq_true, if_false]
      rw [hchal (.nip04Decrypt pk ct)]
    | nip44Encrypt pk text =>
      rw [show request_perm_allowed sess (.nip44Encrypt pk text) =
        has_permission sess "nip44_encrypt" from rfl] at hperm
      rw [handle_request, handle_crypto_arm, hsfc]
      simp only [hperm, Bool.not_true, Bool.false_eq_true, if_false]
      rw [hchal (.nip44Encrypt pk text)]
    | nip44Decrypt pk ct =>
      rw [show request_perm_allowed sess (.nip44Decrypt pk ct) =
        has_permission sess "nip44_decrypt" from rfl] at hperm
      rw [handle_request, handle_crypto_arm, hsfc]
      simp only [hperm, Bool.not_true, Bool.false_eq_true, if_false]
      rw [hchal (.nip44Decrypt pk ct)]
  refine ⟨hmain, hfind1, by rw [hauth1], hfind2, hauth2, ?_⟩
  rcases hh : handle_request crypto d now
      ((st.set_pending_request now cp ⟨rid, cp, req⟩).1.setSession cp
        { sess with authorized := true, pending_request := none }) cp rid req
    with ⟨st3, resp3⟩
  refine ⟨resp3, ?_⟩
  simp only [session_authorize_rpc, hauth1, hh]

/-- **C2 amended witness**: the gate, take-once, and second-authorize
behaviour at a concrete gated session and `SignEvent` request. -/
theorem auth_gate_exactly_once_replay_witness :
    (handle_request cryptoStub dEx 0 stGate "c" "r1"
        (.signEvent ⟨"daemonpk", 1⟩)).2 =
      ⟨some .authUrl, some "https://auth.example"⟩ ∧
    ((stGate.set_pending_request 0 "c"
        ⟨"r1", "c", .signEvent ⟨"daemonpk", 1⟩⟩).1.authorize 0 "c").2 =
      some ⟨some ⟨"r1", "c", .signEvent ⟨"daemonpk", 1⟩⟩⟩ ∧
    (((stGate.set_pending_request 0 "c"
        ⟨"r1", "c", .signEvent ⟨"daemonpk", 1⟩⟩).1.authorize 0 "c").1.authorize
        0 "c").2 = some ⟨none⟩ := by
  have h := auth_gate_exactly_once_replay cryptoStub dEx 0 stGate "c" "r1"
    (.signEvent ⟨"daemonpk", 1⟩) sessGate rfl rfl rfl rfl (by decide) rfl rfl
  refine ⟨?_, h.2.2.1, h.2.2.2.2.1⟩
  rw [h.1]
  rfl

/-- **C10**: the listener dispatch answers `Ping` with `Pong`
unconditionally — for every store (in particular one with no session for
the requester), every requester, and every daemon state, with no session
lookup, permission check, or auth-challenge gate, and the store is left
unchanged. -/
theorem ping_dispatch_unconditional_pong (crypto : CryptoOps) (d : Daemon)
    (now : Nat) (st : Nip46SessionStore) (client_pubkey request_id : String) :
    handle_request crypto d now st client_pubkey request_id .ping =
      (st, .with_result .pong) := rfl

/-- **C7**: parsing `bunker://<64-hex-pubkey>@relay.example.com` succeeds
with mode Bunker, the remote signer pubkey taken from the URL's username,
and the host synthesized into a `wss://` relay URL prepended to the relay
list — with no query relays the relay list is exactly
`["wss://relay.example.com"]`. -/
theorem parse_bunker_relay_host_form (pk : String)
    (hpk : radroots_nostr_parse_pubkey pk = some pk)
    (hne : pk.isEmpty = false) :
    parse_bunker_url ⟨"bunker", pk, some "relay.example.com", none, []⟩ =
      .ok { mode := .bunker, remote_signer_pubkey := some pk,
            client_pubkey := none, relays := ["wss://relay.example.com"],
            secret := none, perms := [], name := none, url := none,
            image := none } ∧
    (∀ q : List (String × String),
      ∃ info, parse_bunker_url ⟨"bunker", pk, some "relay.example.com", none, q⟩ =
          .ok info ∧
        info.mode = .bunker ∧ info.remote_signer_pubkey = some pk ∧
        info.relays = "wss://relay.example.com" ::
          parse_relays ⟨"bunker", pk, some "relay.example.com", none, q⟩) := by
  constructor
  · unfold parse_bunker_url
    simp only [hne, Bool.false_eq_true, if_false, hpk, Bool.not_false, if_true]
    rfl
  · intro q
    have hq : parse_bunker_url ⟨"bunker", pk, some "relay.example.com", none, q⟩ =
        .ok { mode := .bunker,
              remote_signer_pubkey := some pk,
              client_pubkey := none,
              relays := "wss://relay.example.com" ::
                parse_relays ⟨"bunker", pk, some "relay.example.com", none, q⟩,
              secret := parse_optional_param
                ⟨"bunker", pk, some "relay.example.com", none, q⟩ "secret",
              perms := parse_perms
                ⟨"bunker", pk, some "relay.example.com", none, q⟩,
              name := parse_optional_param
                ⟨"bunker", pk, some "relay.example.com", none, q⟩ "name",
              url := parse_optional_param
                ⟨"bunker", pk, some "relay.example.com", none, q⟩ "url",
              image := parse_optional_param
                ⟨"bunker", pk, some "relay.example.com", none, q⟩ "image" } := by
      unfold parse_bunker_url
      simp only [hne, Bool.false_eq_true, if_false, hpk, Bool.not_false, if_true]
      rfl
    exact ⟨_, hq, rfl, rfl, rfl⟩

/-- **C7 witness**: Scenario A at the repository's test pubkey. -/
theorem parse_bunker_relay_host_form_witness :
    parse_bunker_url ⟨"bunker", hexPubkeyEx, some "relay.example.com", none, []⟩ =
      .ok { mode := .bunker, remote_signer_pubkey := some hexPubkeyEx,
            client_pubkey := none, relays := ["wss://relay.example.com"],
            secret := none, perms := [], name := none, url := none,
            image := none } := by
  exact (parse_bunker_relay_host_form hexPubkeyEx (by decide) (by decide)).1

/-- A parameter value returned by `parse_optional_param` is non-empty. -/
theorem parse_optional_param_nonempty (url : Url) (key s : String)
    (h : parse_optional_param url key = some s) : s.isEmpty = false := by
  unfold parse_optional_param at h
  obtain ⟨p, hp, hfp⟩ := List.exists_of_findSome?_eq_some h
  by_cases hk : p.1 = key
  · rw [if_pos hk] at hfp
    by_cases he : p.2.trim.isEmpty
    · rw [if_pos he] at hfp
      cases hfp
    · rw [if_neg he] at hfp
      obtain rfl := Option.some.injEq .. ▸ hfp
      exact Bool.not_eq_true _ ▸ he
  · rw [if_neg hk] at hfp
    cases hfp

/-- **C8**: `parse_nostrconnect_url` fails with `InvalidParams` whenever
the authority is missing or not a valid public key, no usable `relay=`
parameter is present, or no non-empty `secret` parameter is present; on
success the mode is Nostrconnect, the client pubkey is set, the relay list
is non-empty, and the secret is the given non-empty parameter value. -/
theorem parse_nostrconnect_validation :
    (∀ url : Url, url.host = none →
      ∃ msg, parse_nostrconnect_url url = .error (.invalidParams msg)) ∧
    (∀ (url : Url) (host : String), url.host = some host →
      radroots_nostr_parse_pubkey host = none →
      ∃ msg, parse_nostrconnect_url url = .error (.invalidParams msg)) ∧
    (∀ url : Url, parse_relays url = [] →
      ∃ msg, parse_nostrconnect_url url = .error (.invalidParams msg)) ∧
    (∀ url : Url, parse_optional_param url "secret" = none →
      ∃ msg, parse_nostrconnect_url url = .error (.invalidParams msg)) ∧
    (∀ (url : Url) (info : Nip46ConnectInfo),
      parse_nostrconnect_url url = .ok info →
      info.mode = .nostrconnect ∧ info.client_pubkey.isSome = true ∧
      info.relays ≠ [] ∧ info.secret = parse_optional_param url "secret" ∧
      ∃ s, info.secret = some s ∧ s.isEmpty = false) := by
  refine ⟨?_, ?_, ?_, ?_, ?_⟩
  · intro url h
    unfold parse_nostrconnect_url
    simp only [h]
    exact ⟨_, rfl⟩
  · intro url host h hpk
    unfold parse_nostrconnect_url
    simp only [h, hpk]
    exact ⟨_, rfl⟩
  · intro url h
    unfold parse_nostrconnect_url
    cases hh : url.host with
    | none =>
      simp only [hh]
      exact ⟨_, rfl⟩
    | some host =>
      simp only [hh]
      cases hpk : radroots_nostr_parse_pubkey host with
      | none =>
        simp only [hpk]
        exact ⟨_, rfl⟩
      | some pkv =>
        simp only [hpk, h]
        exact ⟨_, rfl⟩
  · intro url h
    unfold parse_nostrconnect_url
    cases hh : url.host with
    | none =>
      simp only [hh]
      exact ⟨_, rfl⟩
    | some host =>
      simp only [hh]
      cases hpk : radroots_nostr_parse_pubkey host with
      | none =>
        simp only [hpk]
        exact ⟨_, rfl⟩
      | some pkv =>
        simp only [hpk]
        by_cases hr : (parse_relays url).isEmpty
        · simp only [hr, if_true]
          exact ⟨_, rfl⟩
        · simp only [hr, Bool.false_eq_true, if_false, h]
          exact ⟨_, rfl⟩
  · intro url info h
    unfold parse_nostrconnect_url at h
    cases hh : url.host with
    | none =>
      simp only [hh] at h
      exact (Except.noConfusion h)
    | some host =>
      simp only [hh] at h
      cases hpk : radroots_nostr_parse_pubkey host with
      | none =>
        simp only [hpk] at h
        exact (Except.noConfusion h)
      | some pkv =>
        simp only [hpk] at h
        by_cases hr : (parse_relays url).isEmpty
        · simp only [hr, if_true] at h
          exact (Except.noConfusion h)
        · simp only [hr, Bool.false_eq_true, if_false] at h
          cases hs : parse_optional_param url "secret" with
          | none =>
            simp only [hs] at h
            exact (Except.noConfusion h)
          | some s =>
            simp only [hs, Except.ok.injEq] at h
            subst h
            refine ⟨rfl, rfl, ?_, rfl,
              ⟨s, rfl, parse_optional_param_nonempty url "secret" s hs⟩⟩
            intro hcon
            exact hr (by rw [show parse_relays url = [] from hcon]; rfl)

/-- **C8 witness**: the validation at concrete URLs — a valid
nostrconnect URL parses with the given secret; dropping the secret, the
relay, or the pubkey validity each yields `InvalidParams`. -/
theorem parse_nostrconnect_validation_witness :
    (∃ msg, parse_nostrconnect_url
      ⟨"nostrconnect", "", some "nothex", none,
        [("relay", "wss://relay.example.com"), ("secret", "tok")]⟩ =
      .error (.invalidParams msg)) ∧
    (∃ msg, parse_nostrconnect_url
      ⟨"nostrconnect", "", some hexPubkeyEx, none, [("secret", "tok")]⟩ =
      .error (.invalidParams msg)) ∧
    (∃ msg, parse_nostrconnect_url
      ⟨"nostrconnect", "", some hexPubkeyEx, none,
        [("relay", "wss://relay.example.com")]⟩ =
      .error (.invalidParams msg)) ∧
    (∀ info, parse_nostrconnect_url
        ⟨"nostrconnect", "", some hexPubkeyEx, none,
          [("relay", "wss://relay.example.com"), ("secret", "tok")]⟩ =
        .ok info →
      info.mode = .nostrconnect ∧ info.client_pubkey.isSome = true ∧
      info.relays ≠ [] ∧ ∃ s, info.secret = some s ∧ s.isEmpty = false) := by
  obtain ⟨h1, h2, h3, h4, h5⟩ := parse_nostrconnect_validation
  refine ⟨?_, ?_, ?_, ?_⟩
  · exact h2 _ "nothex" rfl (by decide)
  · exact h3 _ (by decide)
  · exact h4 _ (by decide)
  · intro info hinfo
    obtain ⟨g1, g2, g3, _, g5⟩ := h5 _ info hinfo
    exact ⟨g1, g2, g3, g5⟩

/-- **C9 counterexample**: an event from the right author and kind that
fails to decrypt, arriving before the matching response, aborts the wait
with an error — it is not ignored, even though it is not the matching
response (which the second conjunct shows would otherwise be found). -/
theorem correlator_nonmatching_decrypt_cex :
    wait_for_response dpEx "signerpk" "r1"
      [.event ⟨kindNostrConnect, "signerpk", "garbage"⟩,
       .event ⟨kindNostrConnect, "signerpk", "good"⟩] =
      .failed "decrypt or parse failed" ∧
    dpEx "garbage" = none ∧
    wait_for_response dpEx "signerpk" "r1"
      [.event ⟨kindNostrConnect, "signerpk", "good"⟩] =
      .found (.response "r1" (some "ack") none) := by
  exact ⟨rfl, rfl, rfl⟩

/-- **C9 amended**: non-event notifications, lagged signals, and events
failing the kind/author pre-filter are ignored and the wait continues;
events passing the filter that decrypt and parse to something other than
the awaited response are likewise skipped; but a decrypt or parse failure
of any event passing the kind/author filter — matching response or not —
is surfaced to the caller as an error. -/
theorem correlator_error_propagation (dp : String → Option NCMessage)
    (signer rid : String) (rest : List PoolItem) :
    (wait_for_response dp signer rid (.lagged :: rest) =
      wait_for_response dp signer rid rest) ∧
    (wait_for_response dp signer rid (.message :: rest) =
      wait_for_response dp signer rid rest) ∧
    (∀ e : NostrEvent, e.kind ≠ kindNostrConnect ∨ e.pubkey ≠ signer →
      wait_for_response dp signer rid (.event e :: rest) =
        wait_for_response dp signer rid rest) ∧
    (∀ e : NostrEvent, e.kind = kindNostrConnect → e.pubkey = signer →
      dp e.content = none →
      wait_for_response dp signer rid (.event e :: rest) =
        .failed "decrypt or parse failed") ∧
    (∀ (e : NostrEvent) (m : NCMessage), e.kind = kindNostrConnect →
      e.pubkey = signer → dp e.content = some m →
      ¬(m.is_response = true ∧ m.msg_id = rid) →
      wait_for_response dp signer rid (.event e :: rest) =
        wait_for_response dp signer rid rest) ∧
    (∀ (e : NostrEvent) (m : NCMessage), e.kind = kindNostrConnect →
      e.pubkey = signer → dp e.content = some m → m.is_response = true →
      m.msg_id = rid →
      wait_for_response dp signer rid (.event e :: rest) = .found m) := by
  refine ⟨rfl, rfl, ?_, ?_, ?_, ?_⟩
  · intro e he
    rw [wait_for_response]
    rcases he with he | he
    · rw [if_pos (by simp [he])]
    · rw [if_pos (by simp [he])]
  · intro e hk hp hdp
    rw [wait_for_response, if_neg (by simp [hk, hp]), hdp]
  · intro e m hk hp hdp hm
    rw [wait_for_response, if_neg (by simp [hk, hp])]
    simp only [hdp]
    rw [if_neg (by simpa [Bool.and_eq_true, decide_eq_true_eq] using hm)]
  · intro e m hk hp hdp hresp hmid
    rw [wait_for_response, if_neg (by simp [hk, hp])]
    simp only [hdp]
    rw [if_pos (by simp [hresp, hmid])]

/-- **C9 amended witness**: the error-surfacing branch at the concrete
counterexample inputs. -/
theorem correlator_error_propagation_witness :
    wait_for_response dpEx "signerpk" "r1"
      [.event ⟨kindNostrConnect, "signerpk", "garbage"⟩,
       .event ⟨kindNostrConnect, "signerpk", "good"⟩] =
      .failed "decrypt or parse failed" ∧
    wait_for_response dpEx "signerpk" "r1"
      (.lagged :: [.event ⟨kindNostrConnect, "signerpk", "good"⟩]) =
      wait_for_response dpEx "signerpk" "r1"
        [.event ⟨kindNostrConnect, "signerpk", "good"⟩] := by
  have h := correlator_error_propagation dpEx "signerpk" "r1"
    [.event ⟨kindNostrConnect, "signerpk", "good"⟩]
  exact ⟨h.2.2.2.1 ⟨kindNostrConnect, "signerpk", "garbage"⟩ rfl rfl rfl, h.1⟩

end Radrootsd
